import Mathlib

/-
Shallow embedding of src/src/index.js of @supercat1337/chain.

The Chain class runs an ordered list of tasks; each task receives the
previous committed result and an Engine (controller) exposing cancel /
complete / raiseError / sleep primitives backed by an AbortController.
The run loop (Chain.run, lines 275-373) interprets thrown errors by their
message string: "Complete" and "Cancel" are control signals, anything else
is a real fault reported through the "error" event.

JavaScript values are modelled by JSVal (objects by identity), errors by
Err (message plus an identity tag), tasks by TaskSpec describing the
behaviours a step can exhibit towards the engine, and the asynchronous
possibility that chain.cancel() aborts the engine token during a step's
await is modelled by an external schedule ext : Nat -> Bool (true at i
means the token gets set during step i, before the step's own engine
action).  The loop is fuelled because the JS loop reads the live task
list and can in principle be kept alive by steps appending tasks.
-/

namespace ChainSpec

/-- A JavaScript value: undefined, null, booleans, numbers, strings, and
objects tracked by identity. -/
inductive JSVal where
  | undef
  | null
  | bool (b : Bool)
  | num (n : Int)
  | str (s : String)
  | obj (id : Nat)
deriving DecidableEq, Repr

/-- A JavaScript Error: its message string plus an identity tag so that
distinct error objects with equal messages can be told apart. -/
structure Err where
  message : String
  id : Nat
deriving DecidableEq, Repr

/-- JavaScript truthiness, used by `ctx = ctx || {}` (line 276). -/
def truthy : JSVal → Bool
  | .undef => false
  | .null => false
  | .bool b => b
  | .num n => n != 0
  | .str s => s != ""
  | .obj _ => true

/-- The control signal `new Error("Cancel")` (lines 49, 93). -/
def cancelError : Err := ⟨"Cancel", 0⟩

/-- The control signal `new Error("Complete")` (line 64). -/
def completeError : Err := ⟨"Complete", 0⟩

/-- `new Error("Already running")` (line 282). -/
def alreadyRunningError : Err := ⟨"Already running", 0⟩

/-- Event names of the chain's emitter (line 209). -/
inductive EvName where
  | run
  | complete
  | cancel
  | error
deriving DecidableEq, Repr

/-- Behaviour of one task towards the engine it is handed:
return a value computed from the previous result, append a task to the
live list and return (Chain.add called from inside a step), or invoke one
of the engine's non-local-exit primitives, or throw an error directly. -/
inductive TaskSpec where
  | pure (f : JSVal → JSVal)
  | pureAdd (f : JSVal → JSVal) (t : TaskSpec)
  | cancel
  | complete (v : JSVal)
  | raiseError (e : Err)
  | throwErr (e : Err)

/-- The observable fields of a Chain instance (lines 212-224): the task
list, returnValue, completedSuccessfully, isRunning, and the private
context object #ctx. -/
structure Chain where
  tasks : List TaskSpec
  returnValue : JSVal
  completedSuccessfully : Bool
  isRunning : Bool
  ctx : JSVal

/-- `new Chain()` with the given tasks added: returnValue is undefined
(declared without initializer, line 216), flags false, #ctx a fresh empty
object (modelled with identity 0). -/
def Chain.init (ts : List TaskSpec) : Chain :=
  ⟨ts, .undef, false, false, .obj 0⟩

/-- `Chain.add` (lines 244-247): push the task, return the chain. -/
def Chain.add (ch : Chain) (t : TaskSpec) : Chain :=
  { ch with tasks := ch.tasks ++ [t] }

/-- `Chain.getCtx` (lines 402-404). -/
def Chain.getCtx (ch : Chain) : JSVal := ch.ctx

/-- An emitted event: name, taskIndex (-1 sentinel allowed, hence Int),
the error detail, and a snapshot of the chain's isRunning /
completedSuccessfully / returnValue at the moment of emission. -/
structure Event where
  name : EvName
  taskIndex : Int
  error : Option Err
  sIsRunning : Bool
  sDone : Bool
  sReturnValue : JSVal
deriving DecidableEq, Repr

/-- Build an event recording the chain's state at emission time. -/
def mkEvent (n : EvName) (idx : Int) (e : Option Err) (ch : Chain) : Event :=
  ⟨n, idx, e, ch.isRunning, ch.completedSuccessfully, ch.returnValue⟩

/-- `Engine.cancel` (lines 45-51): set chain.returnValue to null, abort
the token, throw Error("Cancel").  Returns the mutated chain, the new
token state, and the thrown error. -/
def Engine.cancelOp (ch : Chain) (ab : Bool) : Chain × Bool × Err :=
  ({ ch with returnValue := .null }, true, cancelError)

/-- `Engine.complete` (lines 58-66): checkAbortSignal first (an already
set token wins and cancels), else store the return value, abort the
token, throw Error("Complete"). -/
def Engine.completeOp (ch : Chain) (ab : Bool) (v : JSVal) : Chain × Bool × Err :=
  if ab then Engine.cancelOp ch ab
  else ({ ch with returnValue := v }, true, completeError)

/-- `Engine.raiseError` (lines 73-79): checkAbortSignal first, else set
chain.returnValue to null, abort the token, throw the given error. -/
def Engine.raiseErrorOp (ch : Chain) (ab : Bool) (e : Err) : Chain × Bool × Err :=
  if ab then Engine.cancelOp ch ab
  else ({ ch with returnValue := .null }, true, e)

/-- Result of awaiting one task: a normal value or a thrown error. -/
inductive StepRes where
  | ret (v : JSVal)
  | thrown (e : Err)

/-- Execute one task given the previous result and the engine token
state, producing the updated chain, the updated token, and the task's
outcome. -/
def execTask (t : TaskSpec) (prev : JSVal) (ch : Chain) (ab : Bool) :
    Chain × Bool × StepRes :=
  match t with
  | .pure f => (ch, ab, .ret (f prev))
  | .pureAdd f t2 => (Chain.add ch t2, ab, .ret (f prev))
  | .cancel =>
      match Engine.cancelOp ch ab with
      | (c, a, e) => (c, a, .thrown e)
  | .complete v =>
      match Engine.completeOp ch ab v with
      | (c, a, e) => (c, a, .thrown e)
  | .raiseError e0 =>
      match Engine.raiseErrorOp ch ab e0 with
      | (c, a, e) => (c, a, .thrown e)
  | .throwErr e => (ch, ab, .thrown e)

/-- The outcome of a call to Chain.run: the chain afterwards, the value
the returned promise resolves with, and the events emitted (in order). -/
structure RunOut where
  chain : Chain
  result : JSVal
  events : List Event

/-- The while loop of Chain.run (lines 304-372).  `ext i = true` means
the engine token gets set externally during step i's await, before the
step's own engine action.  Fuelled: `none` means the fuel ran out, not a
behaviour of the code. -/
def runLoop (ext : Nat → Bool) :
    Nat → Nat → JSVal → Chain → Bool → List Event → Option RunOut
  | 0, _, _, _, _, _ => none
  | fuel + 1, i, prev, ch, ab, evs =>
    match ch.tasks[i]? with
    | none =>
      -- lines 362-372: normal completion after the last task
      let ch2 := { ch with isRunning := false, completedSuccessfully := true,
                           returnValue := prev }
      some ⟨ch2, prev, evs ++ [mkEvent .complete ((i : Int) - 1) none ch2]⟩
    | some t =>
      if ab then
        -- line 308: checkAbortSignal -> Engine.cancel throws "Cancel",
        -- caught by the "Cancel" branch (lines 328-340) at index i
        let ch2 := { ch with returnValue := .null, isRunning := false,
                             completedSuccessfully := false }
        some ⟨ch2, .null, evs ++ [mkEvent .cancel (i : Int) none ch2]⟩
      else
        match execTask t prev ch (ext i) with
        | (ch1, ab1, .ret v) => runLoop ext fuel (i + 1) v ch1 ab1 evs
        | (ch1, _, .thrown e) =>
          if e.message = "Complete" then
            -- lines 315-327
            let ch2 := { ch1 with isRunning := false,
                                  completedSuccessfully := true }
            some ⟨ch2, ch2.returnValue,
                  evs ++ [mkEvent .complete (i : Int) none ch2]⟩
          else if e.message = "Cancel" then
            -- lines 328-340
            let ch2 := { ch1 with isRunning := false,
                                  completedSuccessfully := false }
            some ⟨ch2, .null, evs ++ [mkEvent .cancel (i : Int) none ch2]⟩
          else
            -- lines 341-355
            let ch2 := { ch1 with isRunning := false,
                                  completedSuccessfully := false,
                                  returnValue := .null }
            some ⟨ch2, .null, evs ++ [mkEvent .error (i : Int) (some e) ch2]⟩

/-- `Chain.run` (lines 275-373).  `ctxArg = none` models calling run with
no context argument; `fresh` is the identity of the fresh `{}` object the
default `ctx || {}` allocates.  A run rejected as already running emits
one "error" event and resolves null without touching any state. -/
def Chain.run (ch : Chain) (ctxArg : Option JSVal) (fresh : Nat)
    (ext : Nat → Bool) (fuel : Nat) : Option RunOut :=
  let ctxv : JSVal :=
    match ctxArg with
    | some v => if truthy v then v else .obj fresh
    | none => .obj fresh
  if ch.isRunning then
    some ⟨ch, .null, [mkEvent .error (-1) (some alreadyRunningError) ch]⟩
  else
    let ch1 := { ch with isRunning := true, completedSuccessfully := false,
                         returnValue := .null, ctx := ctxv }
    runLoop ext fuel 0 .undef ch1 false [mkEvent .run (-1) none ch1]

/-- How Engine.sleep's promise settles: resolved on timeout, rejected on
abort-during-sleep, or thrown synchronously by the entry
checkAbortSignal. -/
inductive SleepSettle where
  | resolved
  | rejected (e : Err)
  | thrownSync (e : Err)
deriving DecidableEq, Repr

/-- Resource bookkeeping of one Engine.sleep call: how it settled,
whether the timer was released (cleared or fired), and whether the abort
listener was removed from the token. -/
structure SleepRes where
  settled : SleepSettle
  timerReleased : Bool
  listenerRemoved : Bool
deriving DecidableEq, Repr

/-- `Engine.sleep` (lines 86-103).  `ab` is the token state at entry,
`abortDuring` says whether the token gets set during the sleep.  At
entry checkAbortSignal runs (line 87): an already set token cancels via
Engine.cancel before any timer or listener exists.  If the abort fires
during the sleep, the callback (lines 91-94) clears the timer and
REJECTS the promise with Error("Cancel") without removing the listener;
on timeout (lines 96-99) the listener is removed and the promise
resolves. -/
def Engine.sleepOp (ch : Chain) (ab : Bool) (abortDuring : Bool) :
    Chain × Bool × SleepRes :=
  if ab then
    match Engine.cancelOp ch ab with
    | (c, a, e) => (c, a, ⟨.thrownSync e, true, true⟩)
  else if abortDuring then
    (ch, true, ⟨.rejected cancelError, true, false⟩)
  else
    (ch, ab, ⟨.resolved, true, true⟩)

/-- Tasks that just compute a value from the previous result. -/
def pureTasks (fs : List (JSVal → JSVal)) : List TaskSpec :=
  fs.map TaskSpec.pure

/-- Fold a list of pure tasks over an initial value. -/
def foldApp (fs : List (JSVal → JSVal)) (x : JSVal) : JSVal :=
  fs.foldl (fun a f => f a) x

/-- The external schedule in which no outside cancellation happens. -/
def extNever : Nat → Bool := fun _ => false

/-- The "run" event every accepted run emits first (line 298): at that
moment isRunning is true, completedSuccessfully false, returnValue null. -/
def runStartedEv : Event := ⟨.run, -1, none, true, false, .null⟩

/-- Indexing past a known-length left part of an append. -/
theorem getElemAppend {α : Type} (pre l : List α) (j : Nat) :
    (pre ++ l)[pre.length + j]? = l[j]? := by
  induction pre with
  | nil => simp
  | cons a as ih => simpa [Nat.succ_add] using ih

/-- pureTasks preserves length. -/
theorem pureTasks_length (fs : List (JSVal → JSVal)) :
    (pureTasks fs).length = fs.length := by
  simp [pureTasks]

/-- Folding the identity over any value gives it back. -/
theorem foldApp_replicate_id (n : Nat) (x : JSVal) :
    foldApp (List.replicate n id) x = x := by
  induction n generalizing x with
  | zero => rfl
  | succ m ih => simpa [foldApp, List.replicate_succ] using ih x

/-- Executing one task never changes the chain's context object. -/
theorem execTask_ctx (t : TaskSpec) (prev : JSVal) (ch : Chain) (ab : Bool) :
    (execTask t prev ch ab).1.ctx = ch.ctx := by
  cases t <;>
    simp [execTask, Chain.add, Engine.cancelOp, Engine.completeOp,
          Engine.raiseErrorOp] <;>
    split <;> simp

/-- The run loop never changes the chain's context object. -/
theorem runLoop_ctx (ext : Nat → Bool) :
    ∀ (fuel i : Nat) (prev : JSVal) (ch : Chain) (ab : Bool)
      (evs : List Event) (out : RunOut),
      runLoop ext fuel i prev ch ab evs = some out →
      out.chain.ctx = ch.ctx := by
  intro fuel
  induction fuel with
  | zero => intro i prev ch ab evs out h; simp [runLoop] at h
  | succ n ih =>
    intro i prev ch ab evs out h
    rw [runLoop] at h
    split at h
    · injection h with h
      subst h
      rfl
    · rename_i t hti
      split at h
      · injection h with h
        subst h
        rfl
      · split at h
        · rename_i ch1 ab1 v hex
          have hctx1 : ch1.ctx = ch.ctx := by
            have hx := execTask_ctx t prev ch (ext i)
            rw [hex] at hx
            exact hx
          exact hctx1 ▸ ih (i + 1) v ch1 ab1 evs out h
        · rename_i ch1 ab1 e hex
          have hctx1 : ch1.ctx = ch.ctx := by
            have hx := execTask_ctx t prev ch (ext i)
            rw [hex] at hx
            exact hx
          split at h
          · injection h with h
            subst h
            exact hctx1
          · split at h
            · injection h with h
              subst h
              exact hctx1
            · injection h with h
              subst h
              exact hctx1

/-- Pure tasks advance the loop without touching the chain, the token, or
the event list: running a segment of pure tasks folds them over the
previous result, provided no external cancellation lands on the segment. -/
theorem runLoop_pureSeg (ext : Nat → Bool) (fs : List (JSVal → JSVal)) :
    ∀ (pre rest : List TaskSpec) (fuel : Nat) (prev : JSVal) (ch : Chain)
      (evs : List Event),
      ch.tasks = pre ++ pureTasks fs ++ rest →
      (∀ j, j < fs.length → ext (pre.length + j) = false) →
      runLoop ext (fs.length + fuel) pre.length prev ch false evs =
        runLoop ext fuel (pre.length + fs.length) (foldApp fs prev) ch false evs := by
  induction fs with
  | nil => intro pre rest fuel prev ch evs hts hext; simp [foldApp]
  | cons f fs ih =>
    intro pre rest fuel prev ch evs hts hext
    have hfsucc : (f :: fs).length + fuel = (fs.length + fuel) + 1 := by
      simp [List.length_cons]; omega
    rw [hfsucc, runLoop]
    have hti : ch.tasks[pre.length]? = some (TaskSpec.pure f) := by
      have : ch.tasks[pre.length + 0]? = (pureTasks (f :: fs) ++ rest)[0]? := by
        rw [hts, List.append_assoc]
        exact getElemAppend pre (pureTasks (f :: fs) ++ rest) 0
      simpa [pureTasks] using this
    rw [hti]
    have hext0 : ext pre.length = false := by
      have := hext 0 (by simp)
      simpa using this
    simp only [if_false, execTask, hext0]
    have hpre1 : (pre ++ [TaskSpec.pure f]).length = pre.length + 1 := by
      simp
    have hts1 : ch.tasks = (pre ++ [TaskSpec.pure f]) ++ pureTasks fs ++ rest := by
      rw [hts]
      simp [pureTasks]
    have hext1 : ∀ j, j < fs.length →
        ext ((pre ++ [TaskSpec.pure f]).length + j) = false := by
      intro j hj
      rw [hpre1]
      have hx := hext (j + 1) (by simp; omega)
      have heq2 : pre.length + 1 + j = pre.length + (j + 1) := by omega
      rw [heq2]
      exact hx
    have := ih (pre ++ [TaskSpec.pure f]) rest fuel (f prev) ch evs hts1 hext1
    rw [hpre1] at this
    have harith : pre.length + 1 + fs.length = pre.length + (f :: fs).length := by
      simp [List.length_cons]; omega
    rw [harith] at this
    have hfold : foldApp fs (f prev) = foldApp (f :: fs) prev := rfl
    rw [hfold] at this
    exact this

/-- Whenever the loop terminates it appends exactly one event to the
emitted list; that event is terminal (complete, cancel or error), and its
snapshot already shows isRunning false and the final
completedSuccessfully / returnValue of the chain. -/
theorem runLoop_terminal (ext : Nat → Bool) :
    ∀ (fuel i : Nat) (prev : JSVal) (ch : Chain) (ab : Bool)
      (evs : List Event) (out : RunOut),
      runLoop ext fuel i prev ch ab evs = some out →
      out.chain.isRunning = false ∧
      ∃ ev, out.events = evs ++ [ev] ∧
        (ev.name = EvName.complete ∨ ev.name = EvName.cancel ∨
          ev.name = EvName.error) ∧
        ev.sIsRunning = false ∧
        ev.sDone = out.chain.completedSuccessfully ∧
        ev.sReturnValue = out.chain.returnValue := by
  intro fuel
  induction fuel with
  | zero => intro i prev ch ab evs out h; simp [runLoop] at h
  | succ n ih =>
    intro i prev ch ab evs out h
    rw [runLoop] at h
    split at h
    · injection h with h
      subst h
      exact ⟨rfl, ⟨_, rfl, Or.inl rfl, rfl, rfl, rfl⟩⟩
    · rename_i t hti
      split at h
      · injection h with h
        subst h
        exact ⟨rfl, ⟨_, rfl, Or.inr (Or.inl rfl), rfl, rfl, rfl⟩⟩
      · split at h
        · rename_i ch1 ab1 v hex
          exact ih (i + 1) v ch1 ab1 evs out h
        · rename_i ch1 ab1 e hex
          split at h
          · injection h with h
            subst h
            exact ⟨rfl, ⟨_, rfl, Or.inl rfl, rfl, rfl, rfl⟩⟩
          · split at h
            · injection h with h
              subst h
              exact ⟨rfl, ⟨_, rfl, Or.inr (Or.inl rfl), rfl, rfl, rfl⟩⟩
            · injection h with h
              subst h
              exact ⟨rfl, ⟨_, rfl, Or.inr (Or.inr rfl), rfl, rfl, rfl⟩⟩

/-- The context `ctx || {}` resolves to (line 276). -/
def ctxResolve (ctxArg : Option JSVal) (fresh : Nat) : JSVal :=
  match ctxArg with
  | some v => if truthy v then v else .obj fresh
  | none => .obj fresh

/-- An accepted run (chain idle) sets up the running state, emits "run",
and enters the loop with index 0, previousResult undefined and a fresh
unset token. -/
theorem chain_run_idle (ch : Chain) (ctxArg : Option JSVal) (fresh : Nat)
    (ext : Nat → Bool) (fuel : Nat) (hIdle : ch.isRunning = false) :
    Chain.run ch ctxArg fresh ext fuel =
      runLoop ext fuel 0 JSVal.undef
        { ch with isRunning := true, completedSuccessfully := false,
                  returnValue := JSVal.null, ctx := ctxResolve ctxArg fresh }
        false
        [⟨EvName.run, -1, none, true, false, JSVal.null⟩] := by
  simp only [Chain.run]
  rw [if_neg (by simp [hIdle])]
  rfl

/-- Indexing at or past the length gives none. -/
theorem getElemNone {α : Type} (l : List α) (n : Nat) (h : l.length ≤ n) :
    l[n]? = none :=
  List.getElem?_eq_none h

/-- With no task at the current index the loop exits, committing the
previous result and emitting "complete" at index i - 1. -/
theorem runLoop_finish (ext : Nat → Bool) (fuel i : Nat) (prev : JSVal)
    (ch : Chain) (evs : List Event) (hf : fuel ≠ 0)
    (hnone : ch.tasks[i]? = none) :
    runLoop ext fuel i prev ch false evs =
      some ⟨{ ch with isRunning := false, completedSuccessfully := true,
                      returnValue := prev },
            prev,
            evs ++ [⟨EvName.complete, (i : Int) - 1, none, false, true, prev⟩]⟩ := by
  cases fuel with
  | zero => exact absurd rfl hf
  | succ n => simp [runLoop, hnone, mkEvent]

/-- A task returning normally commits its value and advances the loop. -/
theorem runLoop_ret (ext : Nat → Bool) (fuel i : Nat) (prev : JSVal)
    (ch : Chain) (evs : List Event) (t : TaskSpec) (ch1 : Chain) (ab1 : Bool)
    (v : JSVal) (hf : fuel ≠ 0) (ht : ch.tasks[i]? = some t)
    (hex : execTask t prev ch (ext i) = (ch1, ab1, StepRes.ret v)) :
    runLoop ext fuel i prev ch false evs =
      runLoop ext (fuel - 1) (i + 1) v ch1 ab1 evs := by
  cases fuel with
  | zero => exact absurd rfl hf
  | succ n => simp [runLoop, ht, hex]

/-- A task that throws ends the run through the catch (lines 312-357),
selecting the terminal branch by the error's message string. -/
theorem runLoop_thrown (ext : Nat → Bool) (fuel i : Nat) (prev : JSVal)
    (ch : Chain) (evs : List Event) (t : TaskSpec) (ch1 : Chain) (ab1 : Bool)
    (e : Err) (hf : fuel ≠ 0) (ht : ch.tasks[i]? = some t)
    (hex : execTask t prev ch (ext i) = (ch1, ab1, StepRes.thrown e)) :
    runLoop ext fuel i prev ch false evs =
      if e.message = "Complete" then
        some ⟨{ ch1 with isRunning := false, completedSuccessfully := true },
              ch1.returnValue,
              evs ++ [⟨EvName.complete, (i : Int), none, false, true,
                       ch1.returnValue⟩]⟩
      else if e.message = "Cancel" then
        some ⟨{ ch1 with isRunning := false, completedSuccessfully := false },
              JSVal.null,
              evs ++ [⟨EvName.cancel, (i : Int), none, false, false,
                       ch1.returnValue⟩]⟩
      else
        some ⟨{ ch1 with isRunning := false, completedSuccessfully := false,
                         returnValue := JSVal.null },
              JSVal.null,
              evs ++ [⟨EvName.error, (i : Int), some e, false, false,
                       JSVal.null⟩]⟩ := by
  cases fuel with
  | zero => exact absurd rfl hf
  | succ n => simp [runLoop, ht, hex, mkEvent]

/-- C1: for every accepted run (one not rejected as already running),
the events fire in order: "run" first, then exactly one of complete /
cancel / error; and at the moment the terminal event fires, isRunning is
already false and completedSuccessfully and returnValue already hold
their final values, for every task list, external cancellation schedule
and fuel under which the run terminates. -/
theorem chain_run_c1 (ch : Chain) (ctxArg : Option JSVal) (fresh : Nat)
    (ext : Nat → Bool) (fuel : Nat) (out : RunOut)
    (hIdle : ch.isRunning = false)
    (hRun : Chain.run ch ctxArg fresh ext fuel = some out) :
    out.chain.isRunning = false ∧
    ∃ ev0 ev, out.events = [ev0, ev] ∧
      ev0.name = EvName.run ∧ ev0.taskIndex = -1 ∧
      (ev.name = EvName.complete ∨ ev.name = EvName.cancel ∨
        ev.name = EvName.error) ∧
      ev.sIsRunning = false ∧
      ev.sDone = out.chain.completedSuccessfully ∧
      ev.sReturnValue = out.chain.returnValue := by
  rw [chain_run_idle ch ctxArg fresh ext fuel hIdle] at hRun
  obtain ⟨h1, ev, hevs, hname, hsr, hsd, hsv⟩ :=
    runLoop_terminal ext fuel 0 JSVal.undef _ false _ out hRun
  refine ⟨h1, ⟨EvName.run, -1, none, true, false, JSVal.null⟩, ev, ?_,
    rfl, rfl, hname, hsr, hsd, hsv⟩
  simpa using hevs

/-- Concrete terminating run used to instantiate theorems about
Chain.run. -/
def c1OutW : RunOut :=
  (Chain.run (Chain.init []) none 0 extNever 1).getD ⟨Chain.init [], JSVal.null, []⟩

/-- Witness for C1 at the empty chain. -/
theorem chain_run_c1_w :
    c1OutW.chain.isRunning = false ∧
    ∃ ev0 ev, c1OutW.events = [ev0, ev] ∧
      ev0.name = EvName.run ∧ ev0.taskIndex = -1 ∧
      (ev.name = EvName.complete ∨ ev.name = EvName.cancel ∨
        ev.name = EvName.error) ∧
      ev.sIsRunning = false ∧
      ev.sDone = c1OutW.chain.completedSuccessfully ∧
      ev.sReturnValue = c1OutW.chain.returnValue :=
  chain_run_c1 (Chain.init []) none 0 extNever 1 c1OutW rfl rfl

/-- C6 amended: calling run while a run is active resolves null, executes
no step, leaves the chain (and thus the first run) untouched, and emits
exactly one additional "error" event with message "Already running"
(capital A in the code, line 282) and index -1. -/
theorem chain_run_c6_amended (ch : Chain) (ctxArg : Option JSVal)
    (fresh : Nat) (ext : Nat → Bool) (fuel : Nat)
    (hBusy : ch.isRunning = true) :
    Chain.run ch ctxArg fresh ext fuel =
      some ⟨ch, JSVal.null,
        [⟨EvName.error, -1, some alreadyRunningError, true,
          ch.completedSuccessfully, ch.returnValue⟩]⟩ := by
  simp only [Chain.run]
  rw [if_pos hBusy]
  simp [mkEvent, hBusy]

/-- A chain whose run-state is Running, with no tasks. -/
def busyChain : Chain := ⟨[], JSVal.undef, false, true, JSVal.obj 0⟩

/-- Witness for the amended C6 at a concrete running chain. -/
theorem chain_run_c6_w :
    Chain.run busyChain none 0 extNever 0 =
      some ⟨busyChain, JSVal.null,
        [⟨EvName.error, -1, some alreadyRunningError, true,
          busyChain.completedSuccessfully, busyChain.returnValue⟩]⟩ :=
  chain_run_c6_amended busyChain none 0 extNever 0 rfl

/-- C6 counterexample: the error message the code emits for a rejected
second run is "Already running", not "already running" as the claim
states. -/
theorem chain_run_c6_cex :
    (Chain.run busyChain none 0 extNever 0).map
        (fun o => o.events.map (fun ev => ev.error.map Err.message)) =
      some [some "Already running"] ∧
    "Already running" ≠ "already running" :=
  ⟨rfl, by decide⟩

/-- C7 amended: run() invoked without a context argument does NOT keep
the existing context: it installs the freshly allocated empty object
(`ctx = ctx || {}`, line 276, stored unconditionally at line 296). -/
theorem chain_run_c7_amended (ch : Chain) (fresh : Nat) (ext : Nat → Bool)
    (fuel : Nat) (out : RunOut) (hIdle : ch.isRunning = false)
    (hRun : Chain.run ch none fresh ext fuel = some out) :
    out.chain.getCtx = JSVal.obj fresh := by
  rw [chain_run_idle ch none fresh ext fuel hIdle] at hRun
  have hx := runLoop_ctx ext fuel 0 JSVal.undef _ false _ out hRun
  simpa [Chain.getCtx, ctxResolve] using hx

/-- Concrete run for the C7 witness. -/
def c7OutW : RunOut :=
  (Chain.run (Chain.init []) none 9 extNever 1).getD ⟨Chain.init [], JSVal.null, []⟩

/-- Witness for the amended C7. -/
theorem chain_run_c7_w : c7OutW.chain.getCtx = JSVal.obj 9 :=
  chain_run_c7_amended (Chain.init []) 9 extNever 1 c7OutW rfl rfl

/-- An idle chain whose current context object has identity 5. -/
def ctxChain : Chain := ⟨[], JSVal.undef, false, false, JSVal.obj 5⟩

/-- C7 counterexample: after run() without a context argument the chain's
context is the fresh object, not the previous one, so steps of the new
run do not observe the context of the previous run. -/
theorem chain_run_c7_cex :
    (Chain.run ctxChain none 6 extNever 1).map (fun o => o.chain.getCtx) =
      some (JSVal.obj 6) ∧
    JSVal.obj 6 ≠ JSVal.obj 5 :=
  ⟨rfl, by decide⟩

/-- C8 amended: operations of a stale Engine never touch the token of a
later run (each run makes a fresh Engine, line 289, and a subsequent
run of an idle chain is entirely unaffected), but they are not inert on
the Sequence: cancel and raiseError reset the chain's returnValue to
null, and complete overwrites it (with null if that stale Engine's own
token is set, else with the supplied value); they only ever set their
own token. -/
theorem engine_stale_c8_amended (ch : Chain) (ab : Bool) (v : JSVal)
    (e : Err) (ctxArg : Option JSVal) (fresh : Nat) (ext : Nat → Bool)
    (fuel : Nat) (hIdle : ch.isRunning = false) :
    (Engine.cancelOp ch ab).1 = { ch with returnValue := JSVal.null } ∧
    (Engine.raiseErrorOp ch ab e).1 = { ch with returnValue := JSVal.null } ∧
    (Engine.completeOp ch ab v).1 =
      { ch with returnValue := if ab then JSVal.null else v } ∧
    (Engine.cancelOp ch ab).2.1 = true ∧
    Chain.run (Engine.cancelOp ch ab).1 ctxArg fresh ext fuel =
      Chain.run ch ctxArg fresh ext fuel := by
  refine ⟨rfl, ?_, ?_, rfl, ?_⟩
  · cases ab <;> simp [Engine.raiseErrorOp, Engine.cancelOp]
  · cases ab <;> simp [Engine.completeOp, Engine.cancelOp]
  · have hcan : (Engine.cancelOp ch ab).1 = { ch with returnValue := JSVal.null } := rfl
    rw [hcan]
    simp only [Chain.run]
    rw [if_neg (by simp [hIdle]), if_neg (by simp [hIdle])]

/-- The chain left behind by a run that completed with returnValue 42. -/
def doneChain : Chain :=
  ((Chain.run (Chain.init [TaskSpec.pure (fun _ => JSVal.num 42)]) none 0
      extNever 2).getD ⟨Chain.init [], JSVal.null, []⟩).chain

/-- C8 counterexample: invoking cancel on a Controller of a finished run
does affect the Sequence: it resets returnValue (42 after the finished
run) to null. -/
theorem engine_stale_c8_cex :
    doneChain.returnValue = JSVal.num 42 ∧ doneChain.isRunning = false ∧
    (Engine.cancelOp doneChain true).1.returnValue = JSVal.null ∧
    JSVal.null ≠ JSVal.num 42 :=
  ⟨rfl, rfl, rfl, by decide⟩

/-- Witness for the amended C8 at the finished chain. -/
theorem engine_stale_c8_w :
    (Engine.cancelOp doneChain true).1 =
      { doneChain with returnValue := JSVal.null } ∧
    (Engine.raiseErrorOp doneChain true ⟨"x", 0⟩).1 =
      { doneChain with returnValue := JSVal.null } ∧
    (Engine.completeOp doneChain true (JSVal.num 7)).1 =
      { doneChain with returnValue := if true then JSVal.null else JSVal.num 7 } ∧
    (Engine.cancelOp doneChain true).2.1 = true ∧
    Chain.run (Engine.cancelOp doneChain true).1 none 0 extNever 1 =
      Chain.run doneChain none 0 extNever 1 :=
  engine_stale_c8_amended doneChain true (JSVal.num 7) ⟨"x", 0⟩ none 0 extNever 1 rfl

/-- The element sitting right after a pure segment. -/
theorem getElemMid (fs : List (JSVal → JSVal)) (t : TaskSpec)
    (rest : List TaskSpec) :
    (pureTasks fs ++ t :: rest)[fs.length]? = some t := by
  have hx := getElemAppend (pureTasks fs) (t :: rest) 0
  simpa [pureTasks] using hx

/-- Run a chain built from a pure segment followed by anything: the run
is accepted, emits "run", folds the segment and continues the loop at the
segment's end, provided no external cancellation lands on the segment. -/
theorem chain_run_seg (fs : List (JSVal → JSVal)) (rest : List TaskSpec)
    (ctxArg : Option JSVal) (fresh : Nat) (ext : Nat → Bool) (fuel : Nat)
    (hext : ∀ j, j < fs.length → ext j = false) :
    Chain.run (Chain.init (pureTasks fs ++ rest)) ctxArg fresh ext
        (fs.length + fuel) =
      runLoop ext fuel fs.length (foldApp fs JSVal.undef)
        ⟨pureTasks fs ++ rest, JSVal.null, false, true,
          ctxResolve ctxArg fresh⟩
        false [runStartedEv] := by
  rw [chain_run_idle _ _ _ _ _ rfl]
  show runLoop ext (fs.length + fuel) 0 JSVal.undef
      ⟨pureTasks fs ++ rest, JSVal.null, false, true,
        ctxResolve ctxArg fresh⟩ false [runStartedEv] = _
  have hseg := runLoop_pureSeg ext fs [] rest fuel JSVal.undef
      ⟨pureTasks fs ++ rest, JSVal.null, false, true,
        ctxResolve ctxArg fresh⟩
      [runStartedEv] (by simp) (by intro j hj; simpa using hext j hj)
  simpa using hseg

/-- C2 counterexample: run takes a context, not an initial value, and
previousResult starts undefined, so with one step returning its first
argument unchanged, run(x) for x an object resolves undefined, not x. -/
theorem chain_run_c2_cex :
    (Chain.run (Chain.init [TaskSpec.pure id]) (some (JSVal.obj 3)) 0
        extNever 2).map RunOut.result = some JSVal.undef ∧
    JSVal.undef ≠ JSVal.obj 3 :=
  ⟨rfl, by decide⟩

/-- C2 amended: for every N ≥ 0 steps each returning their first argument
(the previous result) unchanged, run resolves with undefined (the initial
previousResult — run accepts no initial value; its only argument is the
context), completedSuccessfully is true afterward and isRunning is false
afterward. -/
theorem chain_run_c2_amended (N : Nat) (ctxArg : Option JSVal)
    (fresh : Nat) :
    ∃ out,
      Chain.run (Chain.init (pureTasks (List.replicate N id))) ctxArg fresh
          extNever (N + 1) = some out ∧
      out.result = JSVal.undef ∧
      out.chain.returnValue = JSVal.undef ∧
      out.chain.completedSuccessfully = true ∧
      out.chain.isRunning = false := by
  have h := chain_run_seg (List.replicate N id) [] ctxArg fresh extNever 1
      (by intro j hj; rfl)
  simp only [List.append_nil, List.length_replicate, foldApp_replicate_id] at h
  rw [h]
  have hN : (pureTasks (List.replicate N id))[N]? = none :=
    getElemNone _ N (by simp [pureTasks])
  rw [runLoop_finish extNever 1 N JSVal.undef
      ⟨pureTasks (List.replicate N id), JSVal.null, false, true,
        ctxResolve ctxArg fresh⟩
      [runStartedEv] (by decide) hN]
  exact ⟨_, rfl, rfl, rfl, rfl, rfl⟩

/-- C3 counterexample: raiseError with an error whose message is "Cancel"
is classified by the catch as a cancellation: "cancel" fires, no "error"
event carries the raised error, contradicting the claim for that e. -/
theorem chain_run_c3_cex :
    (Chain.run (Chain.init [TaskSpec.raiseError ⟨"Cancel", 7⟩]) none 0
        extNever 1).map RunOut.events =
      some [runStartedEv,
        ⟨EvName.cancel, 0, none, false, false, JSVal.null⟩] ∧
    (Chain.run (Chain.init [TaskSpec.raiseError ⟨"Cancel", 7⟩]) none 0
        extNever 1).map RunOut.result = some JSVal.null :=
  ⟨rfl, rfl⟩

/-- C3 amended: for every error e whose message is neither "Cancel" nor
"Complete", raiseError(e) from step k (token unset) makes "error" fire
exactly once with that error and index k, run() resolves null, and
neither "complete" nor "cancel" fires for that run. -/
theorem chain_run_c3_amended (fs : List (JSVal → JSVal)) (e : Err)
    (rest : List TaskSpec) (ctxArg : Option JSVal) (fresh : Nat)
    (h1 : e.message ≠ "Cancel") (h2 : e.message ≠ "Complete") :
    ∃ out,
      Chain.run (Chain.init (pureTasks fs ++ TaskSpec.raiseError e :: rest))
          ctxArg fresh extNever (fs.length + 1) = some out ∧
      out.result = JSVal.null ∧
      out.events = [runStartedEv,
        ⟨EvName.error, (fs.length : Int), some e, false, false, JSVal.null⟩] ∧
      out.chain.completedSuccessfully = false ∧
      out.chain.isRunning = false := by
  rw [chain_run_seg fs (TaskSpec.raiseError e :: rest) ctxArg fresh extNever 1
      (by intro j hj; rfl)]
  rw [runLoop_thrown extNever 1 fs.length (foldApp fs JSVal.undef)
      ⟨pureTasks fs ++ TaskSpec.raiseError e :: rest, JSVal.null, false,
        true, ctxResolve ctxArg fresh⟩
      [runStartedEv] (TaskSpec.raiseError e) _ _ e (by decide)
      (getElemMid fs (TaskSpec.raiseError e) rest) rfl]
  rw [if_neg h2, if_neg h1]
  exact ⟨_, rfl, rfl, rfl, rfl, rfl⟩

/-- Witness for the amended C3 with a one-step chain raising "boom". -/
theorem chain_run_c3_w :
    ∃ out,
      Chain.run (Chain.init [TaskSpec.raiseError ⟨"boom", 4⟩]) none 0
          extNever 1 = some out ∧
      out.result = JSVal.null ∧
      out.events = [runStartedEv,
        ⟨EvName.error, 0, some ⟨"boom", 4⟩, false, false, JSVal.null⟩] ∧
      out.chain.completedSuccessfully = false ∧
      out.chain.isRunning = false :=
  chain_run_c3_amended [] ⟨"boom", 4⟩ [] none 0 (by decide) (by decide)

/-- C5: complete(v) from step k with the token unset short-circuits:
steps k+1..N-1 (any rest) never run, run() resolves v, and "complete"
fires exactly once with index k; and if the token is already set when
complete(v) is called (external cancellation during step k), the
cancellation wins and the run terminates Cancelled. -/
theorem chain_run_c5 (fs : List (JSVal → JSVal)) (v : JSVal)
    (rest : List TaskSpec) (ctxArg : Option JSVal) (fresh : Nat) :
    (∃ out,
      Chain.run (Chain.init (pureTasks fs ++ TaskSpec.complete v :: rest))
          ctxArg fresh extNever (fs.length + 1) = some out ∧
      out.result = v ∧
      out.events = [runStartedEv,
        ⟨EvName.complete, (fs.length : Int), none, false, true, v⟩] ∧
      out.chain.returnValue = v ∧
      out.chain.completedSuccessfully = true ∧
      out.chain.isRunning = false) ∧
    (∃ out,
      Chain.run (Chain.init (pureTasks fs ++ TaskSpec.complete v :: rest))
          ctxArg fresh (fun j => j == fs.length) (fs.length + 1) = some out ∧
      out.result = JSVal.null ∧
      out.events = [runStartedEv,
        ⟨EvName.cancel, (fs.length : Int), none, false, false, JSVal.null⟩] ∧
      out.chain.completedSuccessfully = false ∧
      out.chain.isRunning = false) := by
  constructor
  · rw [chain_run_seg fs (TaskSpec.complete v :: rest) ctxArg fresh extNever 1
        (by intro j hj; rfl)]
    rw [runLoop_thrown extNever 1 fs.length (foldApp fs JSVal.undef)
        ⟨pureTasks fs ++ TaskSpec.complete v :: rest, JSVal.null, false,
          true, ctxResolve ctxArg fresh⟩
        [runStartedEv] (TaskSpec.complete v) _ _ completeError (by decide)
        (getElemMid fs (TaskSpec.complete v) rest) rfl]
    rw [if_pos (by decide : completeError.message = "Complete")]
    exact ⟨_, rfl, rfl, rfl, rfl, rfl, rfl⟩
  · rw [chain_run_seg fs (TaskSpec.complete v :: rest) ctxArg fresh
        (fun j => j == fs.length) 1
        (by intro j hj; simp only [beq_eq_false_iff_ne]; omega)]
    have hex : execTask (TaskSpec.complete v) (foldApp fs JSVal.undef)
        (⟨pureTasks fs ++ TaskSpec.complete v :: rest, JSVal.null, false,
          true, ctxResolve ctxArg fresh⟩ : Chain)
        ((fun j => j == fs.length) fs.length) =
        ({ (⟨pureTasks fs ++ TaskSpec.complete v :: rest, JSVal.null, false,
            true, ctxResolve ctxArg fresh⟩ : Chain) with
           returnValue := JSVal.null }, true, StepRes.thrown cancelError) := by
      simp [execTask, Engine.completeOp, Engine.cancelOp]
    rw [runLoop_thrown (fun j => j == fs.length) 1 fs.length
        (foldApp fs JSVal.undef)
        ⟨pureTasks fs ++ TaskSpec.complete v :: rest, JSVal.null, false,
          true, ctxResolve ctxArg fresh⟩
        [runStartedEv] (TaskSpec.complete v) _ _ cancelError (by decide)
        (getElemMid fs (TaskSpec.complete v) rest) hex]
    rw [if_neg (by decide : ¬cancelError.message = "Complete"),
        if_pos (by decide : cancelError.message = "Cancel")]
    exact ⟨_, rfl, rfl, rfl, rfl, rfl⟩

/-- C9: the loop classifies thrown faults solely by their message: a step
directly throwing an Error with message exactly "Cancel" (any identity)
terminates the run Cancelled ("cancel" fires, no "error", run resolves
null), and one with message exactly "Complete" terminates it Completed
("complete" fires and run resolves the currently stored returnValue,
null here since no engine primitive stored one). -/
theorem chain_run_c9 (fs : List (JSVal → JSVal)) (n1 n2 : Nat)
    (rest1 rest2 : List TaskSpec) (ctxArg : Option JSVal) (fresh : Nat) :
    (∃ out,
      Chain.run (Chain.init
          (pureTasks fs ++ TaskSpec.throwErr ⟨"Cancel", n1⟩ :: rest1))
          ctxArg fresh extNever (fs.length + 1) = some out ∧
      out.result = JSVal.null ∧
      out.events = [runStartedEv,
        ⟨EvName.cancel, (fs.length : Int), none, false, false, JSVal.null⟩] ∧
      out.chain.completedSuccessfully = false ∧
      out.chain.isRunning = false) ∧
    (∃ out,
      Chain.run (Chain.init
          (pureTasks fs ++ TaskSpec.throwErr ⟨"Complete", n2⟩ :: rest2))
          ctxArg fresh extNever (fs.length + 1) = some out ∧
      out.result = out.chain.returnValue ∧
      out.chain.returnValue = JSVal.null ∧
      out.events = [runStartedEv,
        ⟨EvName.complete, (fs.length : Int), none, false, true, JSVal.null⟩] ∧
      out.chain.completedSuccessfully = true ∧
      out.chain.isRunning = false) := by
  constructor
  · rw [chain_run_seg fs (TaskSpec.throwErr ⟨"Cancel", n1⟩ :: rest1) ctxArg
        fresh extNever 1 (by intro j hj; rfl)]
    rw [runLoop_thrown extNever 1 fs.length (foldApp fs JSVal.undef)
        ⟨pureTasks fs ++ TaskSpec.throwErr ⟨"Cancel", n1⟩ :: rest1,
          JSVal.null, false, true, ctxResolve ctxArg fresh⟩
        [runStartedEv] (TaskSpec.throwErr ⟨"Cancel", n1⟩) _ _ ⟨"Cancel", n1⟩
        (by decide) (getElemMid fs (TaskSpec.throwErr ⟨"Cancel", n1⟩) rest1)
        rfl]
    rw [if_neg (show ¬(Err.mk "Cancel" n1).message = "Complete" by simp),
        if_pos (show (Err.mk "Cancel" n1).message = "Cancel" from rfl)]
    exact ⟨_, rfl, rfl, rfl, rfl, rfl⟩
  · rw [chain_run_seg fs (TaskSpec.throwErr ⟨"Complete", n2⟩ :: rest2) ctxArg
        fresh extNever 1 (by intro j hj; rfl)]
    rw [runLoop_thrown extNever 1 fs.length (foldApp fs JSVal.undef)
        ⟨pureTasks fs ++ TaskSpec.throwErr ⟨"Complete", n2⟩ :: rest2,
          JSVal.null, false, true, ctxResolve ctxArg fresh⟩
        [runStartedEv] (TaskSpec.throwErr ⟨"Complete", n2⟩) _ _
        ⟨"Complete", n2⟩ (by decide)
        (getElemMid fs (TaskSpec.throwErr ⟨"Complete", n2⟩) rest2) rfl]
    rw [if_pos (show (Err.mk "Complete" n2).message = "Complete" from rfl)]
    exact ⟨_, rfl, rfl, rfl, rfl, rfl, rfl⟩

/-- C10: the loop reads the task list live: a step that appends a task at
the end of the list gets that task executed by the same run, in order,
receiving the appending step's committed result; the appended task is the
last attempted index and its value is the final result. -/
theorem chain_run_c10 (fs : List (JSVal → JSVal)) (g p : JSVal → JSVal)
    (ctxArg : Option JSVal) (fresh : Nat) :
    ∃ out,
      Chain.run (Chain.init
          (pureTasks fs ++ [TaskSpec.pureAdd g (TaskSpec.pure p)]))
          ctxArg fresh extNever (fs.length + 3) = some out ∧
      out.result = p (g (foldApp fs JSVal.undef)) ∧
      out.chain.returnValue = p (g (foldApp fs JSVal.undef)) ∧
      out.chain.tasks = pureTasks fs ++
        [TaskSpec.pureAdd g (TaskSpec.pure p), TaskSpec.pure p] ∧
      out.events = [runStartedEv,
        ⟨EvName.complete, (fs.length : Int) + 1, none, false, true,
          p (g (foldApp fs JSVal.undef))⟩] ∧
      out.chain.completedSuccessfully = true ∧
      out.chain.isRunning = false := by
  rw [chain_run_seg fs [TaskSpec.pureAdd g (TaskSpec.pure p)] ctxArg fresh
      extNever 3 (by intro j hj; rfl)]
  rw [runLoop_ret extNever 3 fs.length (foldApp fs JSVal.undef)
      ⟨pureTasks fs ++ [TaskSpec.pureAdd g (TaskSpec.pure p)], JSVal.null,
        false, true, ctxResolve ctxArg fresh⟩
      [runStartedEv] (TaskSpec.pureAdd g (TaskSpec.pure p))
      (Chain.add
        ⟨pureTasks fs ++ [TaskSpec.pureAdd g (TaskSpec.pure p)], JSVal.null,
          false, true, ctxResolve ctxArg fresh⟩ (TaskSpec.pure p))
      false (g (foldApp fs JSVal.undef)) (by decide)
      (getElemMid fs (TaskSpec.pureAdd g (TaskSpec.pure p)) []) rfl]
  have hf3 : (3 : Nat) - 1 = 2 := rfl
  rw [hf3]
  have hlen : (pureTasks fs ++ [TaskSpec.pureAdd g (TaskSpec.pure p)]).length
      = fs.length + 1 := by simp [pureTasks]
  have ht2 : ((pureTasks fs ++ [TaskSpec.pureAdd g (TaskSpec.pure p)]) ++
      [TaskSpec.pure p])[fs.length + 1]? = some (TaskSpec.pure p) := by
    have hx := getElemAppend
      (pureTasks fs ++ [TaskSpec.pureAdd g (TaskSpec.pure p)])
      [TaskSpec.pure p] 0
    rw [hlen] at hx
    simpa using hx
  rw [runLoop_ret extNever 2 (fs.length + 1) (g (foldApp fs JSVal.undef))
      (Chain.add
        ⟨pureTasks fs ++ [TaskSpec.pureAdd g (TaskSpec.pure p)], JSVal.null,
          false, true, ctxResolve ctxArg fresh⟩ (TaskSpec.pure p))
      [runStartedEv] (TaskSpec.pure p)
      (Chain.add
        ⟨pureTasks fs ++ [TaskSpec.pureAdd g (TaskSpec.pure p)], JSVal.null,
          false, true, ctxResolve ctxArg fresh⟩ (TaskSpec.pure p))
      false (p (g (foldApp fs JSVal.undef)))
      (by decide) ht2 rfl]
  have hf2 : (2 : Nat) - 1 = 1 := rfl
  rw [hf2]
  have hN : ((pureTasks fs ++ [TaskSpec.pureAdd g (TaskSpec.pure p)]) ++
      [TaskSpec.pure p])[fs.length + 2]? = none :=
    getElemNone _ _ (by simp [pureTasks])
  rw [runLoop_finish extNever 1 (fs.length + 2)
      (p (g (foldApp fs JSVal.undef)))
      (Chain.add
        ⟨pureTasks fs ++ [TaskSpec.pureAdd g (TaskSpec.pure p)], JSVal.null,
          false, true, ctxResolve ctxArg fresh⟩ (TaskSpec.pure p))
      [runStartedEv] (by decide) hN]
  have hidx : ((fs.length + 2 : Nat) : Int) - 1 = (fs.length : Int) + 1 := by
    push_cast
    ring
  rw [hidx]
  exact ⟨_, rfl, rfl, rfl, by simp [Chain.add], rfl, rfl, rfl⟩

/-- C4 (code bug): Engine.sleep entered with the token unset and aborted
during the sleep REJECTS its promise with Error("Cancel") and leaves the
abort listener subscribed (only the timer is cleared), contradicting the
claim and the code's own doc comment (line 82: "the promise is resolved
immediately"). -/
theorem engine_sleep_c4 :
    Engine.sleepOp (Chain.init []) false true =
      (Chain.init [], true,
        ⟨SleepSettle.rejected ⟨"Cancel", 0⟩, true, false⟩) := rfl

end ChainSpec
